import Mathlib

/-!
Shallow embedding of `src/transcribe.py` (Vimeo Transkript Generator).

The program is a two-phase checkpoint/resume pipeline: it reads rows from a
spreadsheet, deduplicates the Vimeo ids, downloads each audio track
(phase "download"), transcribes it (phase "transcribe"), persisting a
progress snapshot to a JSON file along the way, and finally joins per-id
outcomes back onto the rows for a report.

Modelling choices:
* Python dicts keyed by strings become association lists
  (`List (String × _)`); insertion preserves the position of an existing
  key and appends a new key, matching CPython dict semantics.
* The filesystem is a predicate `fs : String → Bool` (`os.path.exists`).
* The external collaborators (`yt_dlp` download, `faster_whisper`
  transcription) are oracles mapping a vimeo id to an outcome: either the
  call returns (together with what it left on disk / the segments it
  produced) or it raises an exception with a message.
* `save_progress` calls are recorded as a chronological list of snapshots.
* Collaborator invocations are recorded in a `calls` list, in order.
* In the source, `downloaded`/`transcribed` alias the sub-dicts of
  `progress` (`progress.get("downloaded", {})` returns the inner dict
  object), so `progress["downloaded"] = downloaded` is a no-op; the model
  therefore keeps the single `progress` record as the state.
* Durations and timing values (floats in the source) are abstracted as
  integers supplied by the oracle; the program only stores and reports
  them, never computes with them in a claim-relevant way.
-/

namespace Transkript

/-- Association-list lookup: Python `d[k]` / `d.get(k)` / `k in d`. -/
def alGet {α : Type} : List (String × α) → String → Option α
  | [], _ => none
  | (k', v) :: rest, k => if k' = k then some v else alGet rest k

/-- Association-list update: Python `d[k] = v` (existing key keeps its
position, new key is appended). -/
def alSet {α : Type} : List (String × α) → String → α → List (String × α)
  | [], k, v => [(k, v)]
  | (k', v') :: rest, k, v =>
      if k' = k then (k, v) :: rest else (k', v') :: alSet rest k v

/-- Longest run of decimal digits at the head of the character list
(the `(\d+)` group of the regex, anchored at the match position). -/
def takeDigits : List Char → List Char
  | [] => []
  | c :: cs => if c.isDigit then c :: takeDigits cs else []

/-- If `p` starts the list `l`, return the remainder of `l` after `p`. -/
def dropStart : List Char → List Char → Option (List Char)
  | [], l => some l
  | _ :: _, [] => none
  | p :: ps, c :: cs => if c = p then dropStart ps cs else none

/-- The literal part of the pattern `vimeo\.com/(\d+)`. -/
def vimeoMarker : List Char := "vimeo.com/".toList

/-- `re.search(r"vimeo\.com/(\d+)", s)`: leftmost position where the
literal marker is followed by at least one digit; returns the digit group. -/
def searchVimeo : List Char → Option String
  | [] => none
  | c :: rest =>
      match dropStart vimeoMarker (c :: rest) with
      | some after =>
          let ds := takeDigits after
          if ds = [] then searchVimeo rest else some (String.mk ds)
      | none => searchVimeo rest

/-- `extract_vimeo_id` from the source: `None` for falsy input, else the
first regex match group. -/
def extract_vimeo_id (url : String) : Option String :=
  if url = "" then none else searchVimeo url.toList

/-- Python `str.strip()` on the character list: drop whitespace from both
ends. -/
def stripChars (l : List Char) : List Char :=
  ((l.dropWhile Char.isWhitespace).reverse.dropWhile Char.isWhitespace).reverse

/-- Python `s.strip()`. -/
def strip (s : String) : String := String.mk (stripChars s.toList)

/-- Python `s[:n]` (slice by characters). -/
def strTake (s : String) (n : Nat) : String := String.mk (s.toList.take n)

/-- `clean_vimeo_url` from the source: `str(url).split("?")[0].strip()`
(the first split piece is exactly the characters before the first `?`). -/
def clean_vimeo_url (url : String) : String :=
  if url = "" then ""
  else String.mk (stripChars (url.toList.takeWhile fun c => c ≠ '?'))

/-- A raw spreadsheet row as `read_excel` sees it (cell values may be
empty; `none` models an empty cell / Python `None`). -/
structure RawRow where
  row : Nat
  order : Option String
  modul : Option String
  bereich : Option String
  kategorie : Option String
  uebung : Option String
  video_kurz : Option String
  video_lang : Option String
deriving DecidableEq, Repr

/-- Python truthiness of an optional string cell. -/
def truthy (o : Option String) : Bool := o.getD "" ≠ ""

/-- `str(x) if x else ""` on a string-valued cell. -/
def cellStr (o : Option String) : String := o.getD ""

/-- Python `need in hay` on strings: does `need` occur contiguously in
the character list? -/
def containsSub (need : List Char) : List Char → Bool
  | [] => (dropStart need []).isSome
  | c :: rest => (dropStart need (c :: rest)).isSome || containsSub need rest

/-- `video_slot and "vimeo" in str(video_slot).lower()` (`lower` maps
each character to its lower-case form). -/
def hasVimeo (o : Option String) : Bool :=
  truthy o && containsSub "vimeo".toList ((o.getD "").toList.map Char.toLower)

/-- One entry of the flat list produced by `read_excel` (one per
Vimeo link occurrence). -/
structure Entry where
  row : Nat
  order : Option String
  modul : String
  bereich : String
  kategorie : String
  uebung : String
  link_typ : String
  url : String
  url_clean : String
  vimeo_id : Option String
deriving DecidableEq, Repr

/-- The entry built for one URL slot of a row, when that slot holds a
Vimeo link (the two `if video_… and "vimeo" in …` blocks of `read_excel`). -/
def slotEntry (r : RawRow) (typ : String) (slot : Option String) : List Entry :=
  if hasVimeo slot then
    let raw := slot.getD ""
    let url := clean_vimeo_url raw
    [⟨r.row, r.order, cellStr r.modul, cellStr r.bereich, cellStr r.kategorie,
      cellStr r.uebung, typ, strip raw, url, extract_vimeo_id url⟩]
  else []

/-- `read_excel`: each row contributes up to two entries, "kurz" slot
first, then "lang". -/
def read_excel (rows : List RawRow) : List Entry :=
  rows.flatMap fun r => slotEntry r "kurz" r.video_kurz ++ slotEntry r "lang" r.video_lang

/-- One value of the `downloaded` mapping:
`{"status": "ok", "path": p}` or `{"status": "error", "error": m}`
(absent fields are modelled as `""`). -/
structure FetchRec where
  status : String
  path : String
  error : String
deriving DecidableEq, Repr

def fetchOk (p : String) : FetchRec := ⟨"ok", p, ""⟩

def fetchErr (m : String) : FetchRec := ⟨"error", "", m⟩

/-- One value of the `transcribed` mapping; ok-records carry
`text`/`audio_duration_s`/`processing_time_s`, error-records carry
`error` (absent fields are modelled as `""` / `0`). -/
structure TransRec where
  status : String
  text : String
  audio_duration_s : Int
  processing_time_s : Int
  error : String
deriving DecidableEq, Repr

def transOk (text : String) (dur proc : Int) : TransRec := ⟨"ok", text, dur, proc, ""⟩

def transErr (m : String) : TransRec := ⟨"error", "", 0, 0, m⟩

/-- The progress dictionary persisted to `progress.json`: exactly the two
top-level mappings the program reads and writes. -/
structure Progress where
  downloaded : List (String × FetchRec)
  transcribed : List (String × TransRec)
deriving DecidableEq, Repr

/-- `load_progress`: the stored file content if one exists, else the empty
two-phase mapping (`{"downloaded": {}, "transcribed": {}}`). -/
def load_progress (stored : Option Progress) : Progress :=
  match stored with
  | some p => p
  | none => ⟨[], []⟩

def AUDIO_DIR : String := "output/audio"

/-- `os.path.join(AUDIO_DIR, f"{vimeo_id}.mp3")`. -/
def audioPath (vid : String) : String := AUDIO_DIR ++ "/" ++ vid ++ ".mp3"

/-- Outcome of one `yt_dlp` invocation for one id: the call either
returns (with some return code the program ignores, and with the audio
file either present or absent at the expected path afterwards), or raises
an exception with message `msg`. -/
inductive FetchOutcome where
  | ret (retCode : Int) (fileOnDisk : Bool)
  | exc (msg : String)
deriving DecidableEq, Repr

/-- Outcome of one `model.transcribe` call: the segment texts plus the
reported audio duration and the measured processing time, or an
exception. -/
inductive TransOutcome where
  | ret (segments : List String) (audioDur : Int) (procTime : Int)
  | exc (msg : String)
deriving DecidableEq, Repr

/-- The `unique_ids` dict of `download_audio`, built in first-seen order;
`seen` holds the keys already inserted. -/
def uniqueIdsFrom (seen : List String) : List Entry → List (String × String)
  | [] => []
  | e :: es =>
      match e.vimeo_id with
      | some vid =>
          if vid ≠ "" ∧ vid ∉ seen then
            (vid, e.url_clean) :: uniqueIdsFrom (vid :: seen) es
          else uniqueIdsFrom seen es
      | none => uniqueIdsFrom seen es

/-- `unique_ids` as `download_audio` builds it:
`if vid and vid not in unique_ids: unique_ids[vid] = e["url_clean"]`. -/
def unique_ids (entries : List Entry) : List (String × String) :=
  uniqueIdsFrom [] entries

/-- The sequence of ids the download loop iterates over. -/
def fetch_order (entries : List Entry) : List String :=
  (unique_ids entries).map Prod.fst

/-- The skip test of the download loop (lines 183–184): the id has a
`downloaded` record with status `"ok"` whose recorded path still exists. -/
def fetchSkip (fs : String → Bool) (downloaded : List (String × FetchRec))
    (vid : String) : Bool :=
  match alGet downloaded vid with
  | some r => r.status = "ok" && fs r.path
  | none => false

/-- State threaded through the download loop: the progress record (whose
`downloaded` field is the loop's mapping — they alias in the source), the
chronological list of `save_progress` snapshots, the ids the collaborator
was invoked for, and the three counters. -/
structure DState where
  progress : Progress
  saves : List Progress
  calls : List String
  skipped : Nat
  failed : Nat
  new_downloads : Nat
deriving DecidableEq, Repr

/-- One iteration of the `download_audio` loop body for `(vimeo_id, url)`. -/
def download_step (fs : String → Bool) (oracle : String → FetchOutcome)
    (st : DState) (item : String × String) : DState :=
  let vid := item.1
  let audio_path := audioPath vid
  if fetchSkip fs st.progress.downloaded vid then
    -- `skipped += 1; continue` — no save_progress on this path
    { st with skipped := st.skipped + 1 }
  else
    match oracle vid with
    | FetchOutcome.ret _ onDisk =>
        if onDisk then
          let p : Progress :=
            { st.progress with
                downloaded := alSet st.progress.downloaded vid (fetchOk audio_path) }
          { st with progress := p, saves := st.saves ++ [p],
                    calls := st.calls ++ [vid],
                    new_downloads := st.new_downloads + 1 }
        else
          let p : Progress :=
            { st.progress with
                downloaded := alSet st.progress.downloaded vid
                  (fetchErr "Datei nicht gefunden nach Download") }
          { st with progress := p, saves := st.saves ++ [p],
                    calls := st.calls ++ [vid], failed := st.failed + 1 }
    | FetchOutcome.exc msg =>
        let p : Progress :=
          { st.progress with
              downloaded := alSet st.progress.downloaded vid
                (fetchErr (strTake msg 200)) }
        { st with progress := p, saves := st.saves ++ [p],
                  calls := st.calls ++ [vid], failed := st.failed + 1 }

/-- `download_audio`: fold the loop body over the unique ids in first-seen
order, starting from the loaded progress with empty trace lists and zeroed
counters. -/
def download_audio (fs : String → Bool) (oracle : String → FetchOutcome)
    (entries : List Entry) (progress : Progress) : DState :=
  (unique_ids entries).foldl (download_step fs oracle) ⟨progress, [], [], 0, 0, 0⟩

/-- Membership test of an id in the transcription work set
(`vid and vid in downloaded and downloaded[vid].get("status") == "ok"`). -/
def eligEntry (downloaded : List (String × FetchRec)) (e : Entry) : Bool :=
  match e.vimeo_id with
  | some vid =>
      (vid ≠ "" : Bool) &&
        (match alGet downloaded vid with
         | some r => r.status = "ok"
         | none => false)
  | none => false

/-- The distinct eligible ids (the Python `set`, in first-seen order
before sorting). -/
def eligibleIds (entries : List Entry) (downloaded : List (String × FetchRec)) :
    List String :=
  (entries.filterMap fun e => if eligEntry downloaded e then e.vimeo_id else none).dedup

/-- Lexicographic comparison of character lists by code point, as Python
compares strings. -/
def charsLe : List Char → List Char → Bool
  | [], _ => true
  | _ :: _, [] => false
  | a :: as, b :: bs => if a < b then true else if b < a then false else charsLe as bs

/-- Python `s1 <= s2` on strings. -/
def strLe (a b : String) : Bool := charsLe a.toList b.toList

/-- Insert into an ascending list (used to model Python `sorted` on the
id set). -/
def insertSorted (x : String) : List String → List String
  | [] => [x]
  | y :: ys => if strLe x y then x :: y :: ys else y :: insertSorted x ys

/-- Insertion sort: the deterministic result of `sorted` on the set of
eligible ids. -/
def sortStrings : List String → List String
  | [] => []
  | x :: xs => insertSorted x (sortStrings xs)

/-- The sequence of ids the transcription loop iterates over:
`sorted(unique_ids_to_transcribe)`. -/
def transcribe_order (entries : List Entry)
    (downloaded : List (String × FetchRec)) : List String :=
  sortStrings (eligibleIds entries downloaded)

/-- The skip test of the transcription loop (line 292): a `transcribed`
record with status `"ok"` exists (no artifact re-verification — the
transcript text lives inside the record itself). -/
def transSkip (transcribed : List (String × TransRec)) (vid : String) : Bool :=
  match alGet transcribed vid with
  | some r => r.status = "ok"
  | none => false

/-- State threaded through the transcription loop, mirroring `DState`. -/
structure TState where
  progress : Progress
  saves : List Progress
  calls : List String
  skipped : Nat
  failed : Nat
  new_transcriptions : Nat
deriving DecidableEq, Repr

/-- `" ".join(parts)`. -/
def joinSp : List String → String
  | [] => ""
  | [s] => s
  | s :: t :: rest => s ++ " " ++ joinSp (t :: rest)

/-- `" ".join(segment.text.strip() for segment in segments)`. -/
def joinSegments (segs : List String) : String :=
  joinSp (segs.map strip)

/-- One iteration of the `transcribe_audio` loop body for `vimeo_id`.
`downloaded[vimeo_id]["path"]` is a direct indexing in the source; every
id in the loop's work list is a key of `downloaded` by construction, so
the `getD` default is never exercised on the runs the program performs. -/
def transcribe_step (fs : String → Bool) (oracle : String → TransOutcome)
    (downloaded : List (String × FetchRec)) (st : TState) (vid : String) : TState :=
  if transSkip st.progress.transcribed vid then
    -- `skipped += 1; continue` — no save_progress on this path
    { st with skipped := st.skipped + 1 }
  else
    let audio_path := ((alGet downloaded vid).getD (fetchErr "")).path
    if fs audio_path = false then
      -- record the error, `failed += 1; continue` — no save_progress here
      { st with
          progress :=
            { st.progress with
                transcribed := alSet st.progress.transcribed vid
                  (transErr "Audio-Datei nicht gefunden") },
          failed := st.failed + 1 }
    else
      match oracle vid with
      | TransOutcome.ret segs dur proc =>
          let p : Progress :=
            { st.progress with
                transcribed := alSet st.progress.transcribed vid
                  (transOk (joinSegments segs) dur proc) }
          { st with progress := p, saves := st.saves ++ [p],
                    calls := st.calls ++ [vid],
                    new_transcriptions := st.new_transcriptions + 1 }
      | TransOutcome.exc msg =>
          let p : Progress :=
            { st.progress with
                transcribed := alSet st.progress.transcribed vid
                  (transErr (strTake msg 200)) }
          { st with progress := p, saves := st.saves ++ [p],
                    calls := st.calls ++ [vid], failed := st.failed + 1 }

/-- `transcribe_audio`: fold the loop body over the sorted eligible ids. -/
def transcribe_audio (fs : String → Bool) (oracle : String → TransOutcome)
    (entries : List Entry) (downloaded : List (String × FetchRec))
    (progress : Progress) : TState :=
  (transcribe_order entries downloaded).foldl
    (transcribe_step fs oracle downloaded) ⟨progress, [], [], 0, 0, 0⟩

/-- The status/text/duration triple `export_results` computes per entry
(`none` duration renders as an empty cell). -/
structure ReportRow where
  status : String
  text : String
  audio_dur : Option Int
deriving DecidableEq, Repr

/-- The status-decision cascade of `export_results` (lines 388–412),
first match wins. -/
def row_status (transcribed : List (String × TransRec))
    (downloaded : List (String × FetchRec)) (e : Entry) : ReportRow :=
  let vid := e.vimeo_id.getD ""
  if vid = "" then ⟨"keine_vimeo_id", "", none⟩
  else
    match alGet transcribed vid, alGet downloaded vid with
    | some tr, _ =>
        if tr.status = "ok" then ⟨"ok", tr.text, some tr.audio_duration_s⟩
        else
          match alGet downloaded vid with
          | some dr =>
              if dr.status = "error" then
                ⟨"download_fehlgeschlagen", "[Fehler: " ++ dr.error ++ "]", none⟩
              else if tr.status = "error" then
                ⟨"transkription_fehlgeschlagen", "[Fehler: " ++ tr.error ++ "]", none⟩
              else ⟨"nicht_verarbeitet", "", none⟩
          | none =>
              if tr.status = "error" then
                ⟨"transkription_fehlgeschlagen", "[Fehler: " ++ tr.error ++ "]", none⟩
              else ⟨"nicht_verarbeitet", "", none⟩
    | none, some dr =>
        if dr.status = "error" then
          ⟨"download_fehlgeschlagen", "[Fehler: " ++ dr.error ++ "]", none⟩
        else ⟨"nicht_verarbeitet", "", none⟩
    | none, none => ⟨"nicht_verarbeitet", "", none⟩

/-- `export_results` restricted to its per-row status computation: one
report row per entry, in order. -/
def export_statuses (entries : List Entry)
    (transcribed : List (String × TransRec))
    (downloaded : List (String × FetchRec)) : List ReportRow :=
  entries.map (row_status transcribed downloaded)

/-! ### Basic lemmas about the association-list operations -/

theorem alGet_alSet_self {α : Type} (m : List (String × α)) (k : String) (v : α) :
    alGet (alSet m k v) k = some v := by
  induction m with
  | nil => simp [alSet, alGet]
  | cons hd tl ih =>
      obtain ⟨k', v'⟩ := hd
      by_cases h : k' = k
      · subst h; simp [alSet, alGet]
      · simp [alSet, alGet, h, ih]

theorem alGet_alSet_ne {α : Type} (m : List (String × α)) (k k' : String) (v : α)
    (h : k' ≠ k) : alGet (alSet m k v) k' = alGet m k' := by
  induction m with
  | nil => simp [alSet, alGet, Ne.symm h]
  | cons hd tl ih =>
      obtain ⟨k'', v''⟩ := hd
      by_cases h2 : k'' = k
      · subst h2
        simp [alSet, alGet, Ne.symm h]
      · simp [alSet, alGet, h2, ih]

/-! ### Case equations for the two loop bodies -/

theorem download_step_skip (fs : String → Bool) (oracle : String → FetchOutcome)
    (st : DState) (vid url : String)
    (h : fetchSkip fs st.progress.downloaded vid = true) :
    download_step fs oracle st (vid, url) = { st with skipped := st.skipped + 1 } := by
  simp [download_step, h]

theorem download_step_ret (fs : String → Bool) (oracle : String → FetchOutcome)
    (st : DState) (vid url : String) (c : Int) (b : Bool)
    (h : fetchSkip fs st.progress.downloaded vid = false)
    (ho : oracle vid = FetchOutcome.ret c b) :
    download_step fs oracle st (vid, url) =
      if b then
        let p : Progress :=
          { st.progress with
              downloaded := alSet st.progress.downloaded vid (fetchOk (audioPath vid)) }
        { st with progress := p, saves := st.saves ++ [p],
                  calls := st.calls ++ [vid],
                  new_downloads := st.new_downloads + 1 }
      else
        let p : Progress :=
          { st.progress with
              downloaded := alSet st.progress.downloaded vid
                (fetchErr "Datei nicht gefunden nach Download") }
        { st with progress := p, saves := st.saves ++ [p],
                  calls := st.calls ++ [vid], failed := st.failed + 1 } := by
  cases b <;> simp [download_step, h, ho]

theorem download_step_exc (fs : String → Bool) (oracle : String → FetchOutcome)
    (st : DState) (vid url msg : String)
    (h : fetchSkip fs st.progress.downloaded vid = false)
    (ho : oracle vid = FetchOutcome.exc msg) :
    download_step fs oracle st (vid, url) =
      let p : Progress :=
        { st.progress with
            downloaded := alSet st.progress.downloaded vid (fetchErr (strTake msg 200)) }
      { st with progress := p, saves := st.saves ++ [p],
                calls := st.calls ++ [vid], failed := st.failed + 1 } := by
  simp [download_step, h, ho]

theorem transcribe_step_skip (fs : String → Bool) (oracle : String → TransOutcome)
    (downloaded : List (String × FetchRec)) (st : TState) (vid : String)
    (h : transSkip st.progress.transcribed vid = true) :
    transcribe_step fs oracle downloaded st vid = { st with skipped := st.skipped + 1 } := by
  simp [transcribe_step, h]

theorem transcribe_step_nofile (fs : String → Bool) (oracle : String → TransOutcome)
    (downloaded : List (String × FetchRec)) (st : TState) (vid : String)
    (h : transSkip st.progress.transcribed vid = false)
    (hf : fs (((alGet downloaded vid).getD (fetchErr "")).path) = false) :
    transcribe_step fs oracle downloaded st vid =
      { st with
          progress :=
            { st.progress with
                transcribed := alSet st.progress.transcribed vid
                  (transErr "Audio-Datei nicht gefunden") },
          failed := st.failed + 1 } := by
  simp [transcribe_step, h, hf]

theorem transcribe_step_ret (fs : String → Bool) (oracle : String → TransOutcome)
    (downloaded : List (String × FetchRec)) (st : TState) (vid : String)
    (segs : List String) (dur proc : Int)
    (h : transSkip st.progress.transcribed vid = false)
    (hf : fs (((alGet downloaded vid).getD (fetchErr "")).path) = true)
    (ho : oracle vid = TransOutcome.ret segs dur proc) :
    transcribe_step fs oracle downloaded st vid =
      let p : Progress :=
        { st.progress with
            transcribed := alSet st.progress.transcribed vid
              (transOk (joinSegments segs) dur proc) }
      { st with progress := p, saves := st.saves ++ [p],
                calls := st.calls ++ [vid],
                new_transcriptions := st.new_transcriptions + 1 } := by
  simp [transcribe_step, h, hf, ho]

theorem transcribe_step_exc (fs : String → Bool) (oracle : String → TransOutcome)
    (downloaded : List (String × FetchRec)) (st : TState) (vid msg : String)
    (h : transSkip st.progress.transcribed vid = false)
    (hf : fs (((alGet downloaded vid).getD (fetchErr "")).path) = true)
    (ho : oracle vid = TransOutcome.exc msg) :
    transcribe_step fs oracle downloaded st vid =
      let p : Progress :=
        { st.progress with
            transcribed := alSet st.progress.transcribed vid (transErr (strTake msg 200)) }
      { st with progress := p, saves := st.saves ++ [p],
                calls := st.calls ++ [vid], failed := st.failed + 1 } := by
  simp [transcribe_step, h, hf, ho]

/-! ### Frame lemmas for the two loop bodies -/

theorem download_step_transcribed (fs : String → Bool) (oracle : String → FetchOutcome)
    (st : DState) (item : String × String) :
    (download_step fs oracle st item).progress.transcribed = st.progress.transcribed := by
  obtain ⟨vid, url⟩ := item
  by_cases h : fetchSkip fs st.progress.downloaded vid = true
  · rw [download_step_skip fs oracle st vid url h]
  · rw [Bool.not_eq_true] at h
    cases ho : oracle vid with
    | ret c b =>
        rw [download_step_ret fs oracle st vid url c b h ho]
        cases b <;> simp
    | exc m => rw [download_step_exc fs oracle st vid url m h ho]

theorem transcribe_step_downloaded (fs : String → Bool) (oracle : String → TransOutcome)
    (downloaded : List (String × FetchRec)) (st : TState) (vid : String) :
    (transcribe_step fs oracle downloaded st vid).progress.downloaded
      = st.progress.downloaded := by
  by_cases h : transSkip st.progress.transcribed vid = true
  · rw [transcribe_step_skip fs oracle downloaded st vid h]
  · rw [Bool.not_eq_true] at h
    by_cases hf : fs (((alGet downloaded vid).getD (fetchErr "")).path) = true
    · cases ho : oracle vid with
      | ret segs dur proc =>
          rw [transcribe_step_ret fs oracle downloaded st vid segs dur proc h hf ho]
      | exc m => rw [transcribe_step_exc fs oracle downloaded st vid m h hf ho]
    · rw [Bool.not_eq_true] at hf
      rw [transcribe_step_nofile fs oracle downloaded st vid h hf]

/-- C7: Checkpoint-Store load never fails when no prior checkpoint file
exists: for a path with no existing file, `load_progress` returns the
empty two-phase mapping (empty `downloaded` and empty `transcribed`). -/
theorem c7_load_missing_checkpoint_is_empty :
    (load_progress none).downloaded = [] ∧ (load_progress none).transcribed = [] :=
  ⟨rfl, rfl⟩

/-- C9: each phase runner mutates only its own sub-mapping of the
checkpoint state: `download_audio` leaves the `transcribed` mapping of the
progress structure unchanged, and `transcribe_audio` leaves the
`downloaded` mapping unchanged, for every input. -/
theorem c9_phase_frame (fs : String → Bool) (oF : String → FetchOutcome)
    (oT : String → TransOutcome) (entries : List Entry)
    (downloaded : List (String × FetchRec)) (p : Progress) :
    (download_audio fs oF entries p).progress.transcribed = p.transcribed ∧
    (transcribe_audio fs oT entries downloaded p).progress.downloaded = p.downloaded := by
  constructor
  · unfold download_audio
    exact List.foldlRecOn (motive := fun st => st.progress.transcribed = p.transcribed)
      (unique_ids entries) (download_step fs oF)
      (⟨p, [], [], 0, 0, 0⟩ : DState) rfl
      (fun st hst item _ => (download_step_transcribed fs oF st item).trans hst)
  · unfold transcribe_audio
    exact List.foldlRecOn (motive := fun st => st.progress.downloaded = p.downloaded)
      (transcribe_order entries downloaded)
      (transcribe_step fs oT downloaded) (⟨p, [], [], 0, 0, 0⟩ : TState) rfl
      (fun st hst vid _ => (transcribe_step_downloaded fs oT downloaded st vid).trans hst)

end Transkript

namespace Transkript

/-- C2: for every phase and item, the phase is skipped iff the stored
state is `ok` and the artifact recorded in it still exists. Fetch phase:
skip iff the `downloaded` record is `ok` and its recorded file path
exists; a skip invokes no collaborator and leaves the state unchanged; a
stored `ok` whose file is missing is re-attempted (the collaborator is
invoked again). Transform phase: the artifact of an `ok` record is the
transcript text recorded inline in the state itself, so skip iff the
stored state is `ok`; a skip invokes no collaborator and leaves the state
unchanged. -/
theorem c2_skip_decision (fs : String → Bool) (oF : String → FetchOutcome)
    (oT : String → TransOutcome) (downloaded : List (String × FetchRec))
    (st : DState) (stT : TState) (vid url : String) :
    (fetchSkip fs st.progress.downloaded vid = true ↔
      ∃ r, alGet st.progress.downloaded vid = some r ∧ r.status = "ok" ∧ fs r.path = true) ∧
    (fetchSkip fs st.progress.downloaded vid = true →
      (download_step fs oF st (vid, url)).progress = st.progress ∧
      (download_step fs oF st (vid, url)).calls = st.calls) ∧
    (∀ r, alGet st.progress.downloaded vid = some r → r.status = "ok" → fs r.path = false →
      (download_step fs oF st (vid, url)).calls = st.calls ++ [vid]) ∧
    (transSkip stT.progress.transcribed vid = true ↔
      ∃ r, alGet stT.progress.transcribed vid = some r ∧ r.status = "ok") ∧
    (transSkip stT.progress.transcribed vid = true →
      (transcribe_step fs oT downloaded stT vid).progress = stT.progress ∧
      (transcribe_step fs oT downloaded stT vid).calls = stT.calls) := by
  refine ⟨?_, ?_, ?_, ?_, ?_⟩
  · unfold fetchSkip
    cases halGet : alGet st.progress.downloaded vid with
    | none => simp
    | some r => simp [halGet]
  · intro h
    rw [download_step_skip fs oF st vid url h]
    exact ⟨rfl, rfl⟩
  · intro r hr hok hfs
    have hskip : fetchSkip fs st.progress.downloaded vid = false := by
      unfold fetchSkip
      rw [hr]
      simp [hok, hfs]
    cases ho : oF vid with
    | ret c b =>
        rw [download_step_ret fs oF st vid url c b hskip ho]
        cases b <;> simp
    | exc m =>
        rw [download_step_exc fs oF st vid url m hskip ho]
  · unfold transSkip
    cases halGet : alGet stT.progress.transcribed vid with
    | none => simp
    | some r => simp [halGet]
  · intro h
    rw [transcribe_step_skip fs oT downloaded stT vid h]
    exact ⟨rfl, rfl⟩

/-- Witness for C2: a `downloaded` record that is `ok` but whose recorded
file `"q"` no longer exists is re-attempted — the collaborator is invoked
for id `"7"` again. -/
theorem c2_skip_decision_witness :
    (download_step (fun _ => false) (fun _ => FetchOutcome.ret 0 true)
      ⟨⟨[("7", fetchOk "q")], []⟩, [], [], 0, 0, 0⟩ ("7", "u")).calls = [] ++ ["7"] :=
  ((c2_skip_decision (fun _ => false) (fun _ => FetchOutcome.ret 0 true)
      (fun _ => TransOutcome.exc "e") [] ⟨⟨[("7", fetchOk "q")], []⟩, [], [], 0, 0, 0⟩
      ⟨⟨[], []⟩, [], [], 0, 0, 0⟩ "7" "u").2.2.1) (fetchOk "q") (by decide) (by decide)
      (by decide)

/-- C6: for a fetch attempt that is actually performed (the skip rule did
not fire), the item is recorded `ok` with the artifact path iff the
audio file exists on disk at the expected path after the collaborator
call returns without raising; a returning call with the file absent is
recorded as `error`, and the collaborator's own return code never
influences the result. -/
theorem c6_fetch_success_signal (fs : String → Bool) (oF oF2 : String → FetchOutcome)
    (st : DState) (vid url : String) (c c2 : Int) (b : Bool) :
    (fetchSkip fs st.progress.downloaded vid = false → oF vid = FetchOutcome.ret c b →
      alGet (download_step fs oF st (vid, url)).progress.downloaded vid =
        some (if b then fetchOk (audioPath vid)
              else fetchErr "Datei nicht gefunden nach Download")) ∧
    (fetchSkip fs st.progress.downloaded vid = false → oF vid = FetchOutcome.ret c b →
      ((∃ r, alGet (download_step fs oF st (vid, url)).progress.downloaded vid = some r ∧
          r.status = "ok") ↔ b = true)) ∧
    (oF vid = FetchOutcome.ret c b → oF2 vid = FetchOutcome.ret c2 b →
      download_step fs oF st (vid, url) = download_step fs oF2 st (vid, url)) := by
  refine ⟨?_, ?_, ?_⟩
  · intro h ho
    rw [download_step_ret fs oF st vid url c b h ho]
    cases b <;> simp [alGet_alSet_self]
  · intro h ho
    rw [download_step_ret fs oF st vid url c b h ho]
    cases b <;> simp [alGet_alSet_self, fetchOk, fetchErr]
  · intro ho ho2
    by_cases h : fetchSkip fs st.progress.downloaded vid = true
    · rw [download_step_skip fs oF st vid url h, download_step_skip fs oF2 st vid url h]
    · rw [Bool.not_eq_true] at h
      rw [download_step_ret fs oF st vid url c b h ho,
          download_step_ret fs oF2 st vid url c2 b h ho2]

/-- Witness for C6: with no stored state for id `"3"`, a returning call
that leaves the file on disk records `ok` with the expected path. -/
theorem c6_fetch_success_signal_witness :
    alGet (download_step (fun _ => true) (fun _ => FetchOutcome.ret 5 true)
      ⟨⟨[], []⟩, [], [], 0, 0, 0⟩ ("3", "u")).progress.downloaded "3" =
      some (if true then fetchOk (audioPath "3")
            else fetchErr "Datei nicht gefunden nach Download") :=
  (c6_fetch_success_signal (fun _ => true) (fun _ => FetchOutcome.ret 5 true)
      (fun _ => FetchOutcome.ret 5 true) ⟨⟨[], []⟩, [], [], 0, 0, 0⟩ "3" "u" 5 5 true).1
    (by decide) rfl

end Transkript

namespace Transkript

/-! ### Presence of per-item state after processing -/

theorem download_step_present_self (fs : String → Bool) (oF : String → FetchOutcome)
    (st : DState) (vid url : String) :
    (alGet (download_step fs oF st (vid, url)).progress.downloaded vid).isSome = true := by
  by_cases h : fetchSkip fs st.progress.downloaded vid = true
  · rw [download_step_skip fs oF st vid url h]
    unfold fetchSkip at h
    cases halGet : alGet st.progress.downloaded vid with
    | none => rw [halGet] at h; simp at h
    | some r => simp [halGet]
  · rw [Bool.not_eq_true] at h
    cases ho : oF vid with
    | ret c b =>
        rw [download_step_ret fs oF st vid url c b h ho]
        cases b <;> simp [alGet_alSet_self]
    | exc m =>
        rw [download_step_exc fs oF st vid url m h ho]
        simp [alGet_alSet_self]

theorem download_step_present_mono (fs : String → Bool) (oF : String → FetchOutcome)
    (st : DState) (item : String × String) (w : String)
    (hw : (alGet st.progress.downloaded w).isSome = true) :
    (alGet (download_step fs oF st item).progress.downloaded w).isSome = true := by
  obtain ⟨vid, url⟩ := item
  by_cases hv : w = vid
  · subst hv; exact download_step_present_self fs oF st w url
  · by_cases h : fetchSkip fs st.progress.downloaded vid = true
    · rw [download_step_skip fs oF st vid url h]; exact hw
    · rw [Bool.not_eq_true] at h
      cases ho : oF vid with
      | ret c b =>
          rw [download_step_ret fs oF st vid url c b h ho]
          cases b <;> simp [alGet_alSet_ne _ _ _ _ hv, hw]
      | exc m =>
          rw [download_step_exc fs oF st vid url m h ho]
          simp [alGet_alSet_ne _ _ _ _ hv, hw]

theorem transcribe_step_present_self (fs : String → Bool) (oT : String → TransOutcome)
    (downloaded : List (String × FetchRec)) (st : TState) (vid : String) :
    (alGet (transcribe_step fs oT downloaded st vid).progress.transcribed vid).isSome
      = true := by
  by_cases h : transSkip st.progress.transcribed vid = true
  · rw [transcribe_step_skip fs oT downloaded st vid h]
    unfold transSkip at h
    cases halGet : alGet st.progress.transcribed vid with
    | none => rw [halGet] at h; simp at h
    | some r => simp [halGet]
  · rw [Bool.not_eq_true] at h
    by_cases hf : fs (((alGet downloaded vid).getD (fetchErr "")).path) = true
    · cases ho : oT vid with
      | ret segs dur proc =>
          rw [transcribe_step_ret fs oT downloaded st vid segs dur proc h hf ho]
          simp [alGet_alSet_self]
      | exc m =>
          rw [transcribe_step_exc fs oT downloaded st vid m h hf ho]
          simp [alGet_alSet_self]
    · rw [Bool.not_eq_true] at hf
      rw [transcribe_step_nofile fs oT downloaded st vid h hf]
      simp [alGet_alSet_self]

theorem transcribe_step_present_mono (fs : String → Bool) (oT : String → TransOutcome)
    (downloaded : List (String × FetchRec)) (st : TState) (vid w : String)
    (hw : (alGet st.progress.transcribed w).isSome = true) :
    (alGet (transcribe_step fs oT downloaded st vid).progress.transcribed w).isSome
      = true := by
  by_cases hv : w = vid
  · subst hv; exact transcribe_step_present_self fs oT downloaded st w
  · by_cases h : transSkip st.progress.transcribed vid = true
    · rw [transcribe_step_skip fs oT downloaded st vid h]; exact hw
    · rw [Bool.not_eq_true] at h
      by_cases hf : fs (((alGet downloaded vid).getD (fetchErr "")).path) = true
      · cases ho : oT vid with
        | ret segs dur proc =>
            rw [transcribe_step_ret fs oT downloaded st vid segs dur proc h hf ho]
            simp [alGet_alSet_ne _ _ _ _ hv, hw]
        | exc m =>
            rw [transcribe_step_exc fs oT downloaded st vid m h hf ho]
            simp [alGet_alSet_ne _ _ _ _ hv, hw]
      · rw [Bool.not_eq_true] at hf
        rw [transcribe_step_nofile fs oT downloaded st vid h hf]
        simp [alGet_alSet_ne _ _ _ _ hv, hw]

theorem download_run_present (fs : String → Bool) (oF : String → FetchOutcome)
    (entries : List Entry) (p : Progress) (vid url : String)
    (hmem : (vid, url) ∈ unique_ids entries) :
    (alGet (download_audio fs oF entries p).progress.downloaded vid).isSome = true := by
  obtain ⟨l1, l2, hsplit⟩ := List.append_of_mem hmem
  unfold download_audio
  rw [hsplit, List.foldl_append, List.foldl_cons]
  exact List.foldlRecOn
    (motive := fun st => (alGet st.progress.downloaded vid).isSome = true) l2
    (download_step fs oF) _
    (download_step_present_self fs oF _ vid url)
    (fun st hst item _ => download_step_present_mono fs oF st item vid hst)

theorem transcribe_run_present (fs : String → Bool) (oT : String → TransOutcome)
    (entries : List Entry) (downloaded : List (String × FetchRec)) (p : Progress)
    (vid : String) (hmem : vid ∈ transcribe_order entries downloaded) :
    (alGet (transcribe_audio fs oT entries downloaded p).progress.transcribed vid).isSome
      = true := by
  obtain ⟨l1, l2, hsplit⟩ := List.append_of_mem hmem
  unfold transcribe_audio
  rw [hsplit, List.foldl_append, List.foldl_cons]
  exact List.foldlRecOn
    (motive := fun st => (alGet st.progress.transcribed vid).isSome = true) l2
    (transcribe_step fs oT downloaded) _
    (transcribe_step_present_self fs oT downloaded _ vid)
    (fun st hst w _ => transcribe_step_present_mono fs oT downloaded st w vid hst)

/-- C3: a collaborator exception at a non-skipped item is caught at item
granularity and converted to an `error` record whose message is the
exception text truncated to 200 characters (in both phases); the
truncation really bounds the stored message; and the run never aborts: for
any oracle behaviour, every item of the phase's work list ends the run
with a recorded state. -/
theorem c3_error_isolation (fs : String → Bool) (oF : String → FetchOutcome)
    (oT : String → TransOutcome) (downloaded : List (String × FetchRec))
    (st : DState) (stT : TState) (entries : List Entry) (p p2 : Progress)
    (vid url msg : String) :
    (fetchSkip fs st.progress.downloaded vid = false → oF vid = FetchOutcome.exc msg →
      alGet (download_step fs oF st (vid, url)).progress.downloaded vid
        = some (fetchErr (strTake msg 200))) ∧
    (transSkip stT.progress.transcribed vid = false →
      fs (((alGet downloaded vid).getD (fetchErr "")).path) = true →
      oT vid = TransOutcome.exc msg →
      alGet (transcribe_step fs oT downloaded stT vid).progress.transcribed vid
        = some (transErr (strTake msg 200))) ∧
    (strTake msg 200).toList.length ≤ 200 ∧
    ((vid, url) ∈ unique_ids entries →
      (alGet (download_audio fs oF entries p).progress.downloaded vid).isSome = true) ∧
    (vid ∈ transcribe_order entries downloaded →
      (alGet (transcribe_audio fs oT entries downloaded p2).progress.transcribed vid).isSome
        = true) := by
  refine ⟨?_, ?_, ?_, ?_, ?_⟩
  · intro h ho
    rw [download_step_exc fs oF st vid url msg h ho]
    simp [alGet_alSet_self]
  · intro h hf ho
    rw [transcribe_step_exc fs oT downloaded stT vid msg h hf ho]
    simp [alGet_alSet_self]
  · simp only [strTake]
    calc (String.mk (msg.toList.take 200)).toList.length
        = (msg.toList.take 200).length := rfl
      _ ≤ 200 := by
          rw [List.length_take]
          exact min_le_left _ _
  · exact download_run_present fs oF entries p vid url
  · exact transcribe_run_present fs oT entries downloaded p2 vid

/-- Witness for C3: an exception with a 300-character message at id
`"4"` is recorded as an `error` state carrying the first 200 characters. -/
theorem c3_error_isolation_witness :
    alGet (download_step (fun _ => true)
        (fun _ => FetchOutcome.exc (String.mk (List.replicate 300 'x')))
        ⟨⟨[], []⟩, [], [], 0, 0, 0⟩ ("4", "u")).progress.downloaded "4"
      = some (fetchErr (strTake (String.mk (List.replicate 300 'x')) 200)) :=
  (c3_error_isolation (fun _ => true)
      (fun _ => FetchOutcome.exc (String.mk (List.replicate 300 'x')))
      (fun _ => TransOutcome.exc "e") [] ⟨⟨[], []⟩, [], [], 0, 0, 0⟩
      ⟨⟨[], []⟩, [], [], 0, 0, 0⟩ [] ⟨[], []⟩ ⟨[], []⟩ "4" "u"
      (String.mk (List.replicate 300 'x'))).1 (by decide) rfl

end Transkript

namespace Transkript

/-- `vid in downloaded and downloaded[vid].get("status") == "ok"`. -/
def fetchOkAt (d : List (String × FetchRec)) (vid : String) : Bool :=
  match alGet d vid with
  | some r => r.status = "ok"
  | none => false

/-- `vid in downloaded and downloaded[vid].get("status") == "error"`. -/
def fetchErrAt (d : List (String × FetchRec)) (vid : String) : Bool :=
  match alGet d vid with
  | some r => r.status = "error"
  | none => false

/-- `vid in transcribed and transcribed[vid].get("status") == "error"`. -/
def transErrAt (t : List (String × TransRec)) (vid : String) : Bool :=
  match alGet t vid with
  | some r => r.status = "error"
  | none => false

/-- C4: the Aggregator assigns exactly one status per entry by the first
matching rule of the ordered list: absent id → `keine_vimeo_id`; else
transcribed `ok` → `ok` with the text and duration; else downloaded
`error` → `download_fehlgeschlagen` with the fetch error message; else
transcribed `error` → `transkription_fehlgeschlagen` with the transform
error message; otherwise `nicht_verarbeitet`. In particular an item with
a fetch error and no transform state reports `download_fehlgeschlagen`. -/
theorem c4_status_precedence (t : List (String × TransRec))
    (d : List (String × FetchRec)) (e : Entry) (vid : String) :
    (e.vimeo_id.getD "" = "" → row_status t d e = ⟨"keine_vimeo_id", "", none⟩) ∧
    (e.vimeo_id = some vid → vid ≠ "" →
      ∀ r, alGet t vid = some r → r.status = "ok" →
        row_status t d e = ⟨"ok", r.text, some r.audio_duration_s⟩) ∧
    (e.vimeo_id = some vid → vid ≠ "" → transSkip t vid = false →
      ∀ r, alGet d vid = some r → r.status = "error" →
        row_status t d e = ⟨"download_fehlgeschlagen", "[Fehler: " ++ r.error ++ "]", none⟩) ∧
    (e.vimeo_id = some vid → vid ≠ "" → transSkip t vid = false →
      fetchErrAt d vid = false →
      ∀ r, alGet t vid = some r → r.status = "error" →
        row_status t d e =
          ⟨"transkription_fehlgeschlagen", "[Fehler: " ++ r.error ++ "]", none⟩) ∧
    (e.vimeo_id = some vid → vid ≠ "" → transSkip t vid = false →
      fetchErrAt d vid = false → transErrAt t vid = false →
      row_status t d e = ⟨"nicht_verarbeitet", "", none⟩) ∧
    (e.vimeo_id = some vid → vid ≠ "" → alGet t vid = none → fetchErrAt d vid = true →
      (row_status t d e).status = "download_fehlgeschlagen") := by
  refine ⟨?_, ?_, ?_, ?_, ?_, ?_⟩
  · intro h
    simp [row_status, h]
  · intro hv hne r hr hok
    simp [row_status, hv, hne, hr, hok]
  · intro hv hne htok r hr herr
    unfold transSkip at htok
    cases ht : alGet t vid with
    | none => simp [row_status, hv, hne, ht, hr, herr]
    | some tr =>
        rw [ht] at htok
        simp only [decide_eq_false_iff_not] at htok
        simp [row_status, hv, hne, ht, hr, herr, htok]
  · intro hv hne htok hferr r hr herr
    unfold transSkip at htok
    rw [hr] at htok
    simp only [decide_eq_false_iff_not] at htok
    unfold fetchErrAt at hferr
    cases hd : alGet d vid with
    | none => simp [row_status, hv, hne, hr, hd, htok, herr]
    | some dr =>
        rw [hd] at hferr
        simp only [decide_eq_false_iff_not] at hferr
        simp [row_status, hv, hne, hr, hd, htok, hferr, herr]
  · intro hv hne htok hferr hterr
    unfold transSkip at htok
    unfold fetchErrAt at hferr
    unfold transErrAt at hterr
    cases ht : alGet t vid with
    | none =>
        cases hd : alGet d vid with
        | none => simp [row_status, hv, hne, ht, hd]
        | some dr =>
            rw [hd] at hferr
            simp only [decide_eq_false_iff_not] at hferr
            simp [row_status, hv, hne, ht, hd, hferr]
    | some tr =>
        rw [ht] at htok hterr
        simp only [decide_eq_false_iff_not] at htok hterr
        cases hd : alGet d vid with
        | none => simp [row_status, hv, hne, ht, hd, htok, hterr]
        | some dr =>
            rw [hd] at hferr
            simp only [decide_eq_false_iff_not] at hferr
            simp [row_status, hv, hne, ht, hd, htok, hferr, hterr]
  · intro hv hne ht hferr
    unfold fetchErrAt at hferr
    cases hd : alGet d vid with
    | none => rw [hd] at hferr; simp at hferr
    | some dr =>
        rw [hd] at hferr
        simp only [decide_eq_true_eq] at hferr
        simp [row_status, hv, hne, ht, hd, hferr]

/-- Witness for C4: an entry whose id has a stored fetch error and no
transform state reports `download_fehlgeschlagen`, never
`nicht_verarbeitet`. -/
theorem c4_status_precedence_witness :
    (row_status [] [("2", fetchErr "timeout")]
        ⟨2, none, "", "", "", "", "kurz", "u", "u", some "2"⟩).status
      = "download_fehlgeschlagen" :=
  (c4_status_precedence [] [("2", fetchErr "timeout")]
      ⟨2, none, "", "", "", "", "kurz", "u", "u", some "2"⟩ "2").2.2.2.2.2
    rfl (by decide) rfl (by decide)

end Transkript

namespace Transkript

set_option maxRecDepth 8000

/-- Counterexample to C1 as stated: a skipped download item and a
transform item whose recorded audio file is missing each complete their
processing without any `save_progress` call. One run of each phase
processes exactly one item (download: skipped; transform: recorded as
`error`) yet the list of persisted snapshots stays empty — even though
the transform run did change the in-memory mapping. -/
theorem c1_skip_and_nofile_not_persisted :
    (unique_ids [⟨2, none, "", "", "", "", "kurz", "u", "u", some "b"⟩]).length = 1 ∧
    (download_audio (fun s => decide (s = "p")) (fun _ => FetchOutcome.exc "x")
        [⟨2, none, "", "", "", "", "kurz", "u", "u", some "b"⟩]
        ⟨[("b", fetchOk "p")], []⟩).skipped = 1 ∧
    (download_audio (fun s => decide (s = "p")) (fun _ => FetchOutcome.exc "x")
        [⟨2, none, "", "", "", "", "kurz", "u", "u", some "b"⟩]
        ⟨[("b", fetchOk "p")], []⟩).saves = [] ∧
    (transcribe_audio (fun _ => false) (fun _ => TransOutcome.exc "y")
        [⟨2, none, "", "", "", "", "kurz", "u", "u", some "b"⟩]
        [("b", fetchOk "p")] ⟨[("b", fetchOk "p")], []⟩).progress.transcribed
      = [("b", transErr "Audio-Datei nicht gefunden")] ∧
    (transcribe_audio (fun _ => false) (fun _ => TransOutcome.exc "y")
        [⟨2, none, "", "", "", "", "kurz", "u", "u", some "b"⟩]
        [("b", fetchOk "p")] ⟨[("b", fetchOk "p")], []⟩).saves = [] := by
  decide

/-- C1 (amended): the whole mapping is persisted via a `save_progress`
snapshot immediately after every item whose processing reaches the
collaborator invocation point — i.e. after every non-skipped download
item (whatever the call's outcome) and after every non-skipped transform
item whose recorded audio file exists (whatever the call's outcome); the
persisted snapshot is exactly the item's updated progress mapping. A
skipped item triggers no save but also leaves the mapping unchanged; a
transform item whose recorded audio file is missing records an `error`
state without a save. -/
theorem c1_save_after_each_collaborator_item (fs : String → Bool)
    (oF : String → FetchOutcome) (oT : String → TransOutcome)
    (downloaded : List (String × FetchRec)) (st : DState) (stT : TState)
    (vid url : String) :
    (fetchSkip fs st.progress.downloaded vid = false →
      (download_step fs oF st (vid, url)).saves
        = st.saves ++ [(download_step fs oF st (vid, url)).progress]) ∧
    (fetchSkip fs st.progress.downloaded vid = true →
      (download_step fs oF st (vid, url)).saves = st.saves ∧
      (download_step fs oF st (vid, url)).progress = st.progress) ∧
    (transSkip stT.progress.transcribed vid = false →
      fs (((alGet downloaded vid).getD (fetchErr "")).path) = true →
      (transcribe_step fs oT downloaded stT vid).saves
        = stT.saves ++ [(transcribe_step fs oT downloaded stT vid).progress]) ∧
    (transSkip stT.progress.transcribed vid = true →
      (transcribe_step fs oT downloaded stT vid).saves = stT.saves ∧
      (transcribe_step fs oT downloaded stT vid).progress = stT.progress) ∧
    (transSkip stT.progress.transcribed vid = false →
      fs (((alGet downloaded vid).getD (fetchErr "")).path) = false →
      (transcribe_step fs oT downloaded stT vid).saves = stT.saves) := by
  refine ⟨?_, ?_, ?_, ?_, ?_⟩
  · intro h
    cases ho : oF vid with
    | ret c b =>
        rw [download_step_ret fs oF st vid url c b h ho]
        cases b <;> simp
    | exc m =>
        rw [download_step_exc fs oF st vid url m h ho]
  · intro h
    rw [download_step_skip fs oF st vid url h]
    exact ⟨rfl, rfl⟩
  · intro h hf
    cases ho : oT vid with
    | ret segs dur proc =>
        rw [transcribe_step_ret fs oT downloaded stT vid segs dur proc h hf ho]
    | exc m =>
        rw [transcribe_step_exc fs oT downloaded stT vid m h hf ho]
  · intro h
    rw [transcribe_step_skip fs oT downloaded stT vid h]
    exact ⟨rfl, rfl⟩
  · intro h hf
    rw [transcribe_step_nofile fs oT downloaded stT vid h hf]

/-- Witness for the amended C1: a non-skipped download item (empty prior
state) is followed immediately by a snapshot of the updated mapping. -/
theorem c1_save_after_each_collaborator_item_witness :
    (download_step (fun _ => true) (fun _ => FetchOutcome.exc "x")
        ⟨⟨[], []⟩, [], [], 0, 0, 0⟩ ("b", "u")).saves
      = [] ++ [(download_step (fun _ => true) (fun _ => FetchOutcome.exc "x")
          ⟨⟨[], []⟩, [], [], 0, 0, 0⟩ ("b", "u")).progress] :=
  (c1_save_after_each_collaborator_item (fun _ => true) (fun _ => FetchOutcome.exc "x")
      (fun _ => TransOutcome.exc "y") [] ⟨⟨[], []⟩, [], [], 0, 0, 0⟩
      ⟨⟨[], []⟩, [], [], 0, 0, 0⟩ "b" "u").1 (by decide)

end Transkript

namespace Transkript

/-! ### Ordering lemmas for the two phase iteration sequences -/

theorem charsLe_total : ∀ a b : List Char, charsLe a b = true ∨ charsLe b a = true
  | [], _ => Or.inl rfl
  | _ :: _, [] => Or.inr rfl
  | a :: as, b :: bs => by
      rcases lt_trichotomy a b with hab | hab | hab
      · left; simp [charsLe, hab]
      · subst hab
        rcases charsLe_total as bs with h | h
        · left; simp [charsLe, lt_irrefl a, h]
        · right; simp [charsLe, lt_irrefl a, h]
      · right; simp [charsLe, hab]

theorem strLe_total (a b : String) : strLe a b = true ∨ strLe b a = true :=
  charsLe_total a.toList b.toList

theorem insertSorted_perm (x : String) (l : List String) :
    (insertSorted x l).Perm (x :: l) := by
  induction l with
  | nil => simp [insertSorted]
  | cons y ys ih =>
      by_cases hxy : strLe x y = true
      · rw [insertSorted, if_pos hxy]
      · rw [insertSorted, if_neg hxy]
        exact (ih.cons y).trans (List.Perm.swap x y ys)

theorem sortStrings_perm (l : List String) : (sortStrings l).Perm l := by
  induction l with
  | nil => simp [sortStrings]
  | cons x xs ih =>
      rw [sortStrings]
      exact (insertSorted_perm x (sortStrings xs)).trans (ih.cons x)

theorem chain_le_insertSorted (x : String) (l : List String)
    (h : List.Chain' (fun a b => strLe a b = true) l) :
    List.Chain' (fun a b => strLe a b = true) (insertSorted x l) := by
  induction l with
  | nil => simp [insertSorted]
  | cons y ys ih =>
      by_cases hxy : strLe x y = true
      · rw [insertSorted, if_pos hxy]
        exact List.Chain'.cons hxy h
      · rw [insertSorted, if_neg hxy]
        have hyx : strLe y x = true := (strLe_total x y).resolve_left hxy
        have hys : List.Chain' (fun a b => strLe a b = true) ys := h.tail
        cases ys with
        | nil => simp [insertSorted, hyx]
        | cons z zs =>
            have hyz : strLe y z = true := (List.chain'_cons.1 h).1
            by_cases hxz : strLe x z = true
            · rw [insertSorted, if_pos hxz]
              exact List.Chain'.cons hyx (List.Chain'.cons hxz hys)
            · have hrec := ih hys
              rw [insertSorted, if_neg hxz] at hrec ⊢
              exact List.Chain'.cons hyz hrec

theorem chain_le_sortStrings (l : List String) :
    List.Chain' (fun a b => strLe a b = true) (sortStrings l) := by
  induction l with
  | nil => simp [sortStrings]
  | cons x xs ih => exact chain_le_insertSorted x (sortStrings xs) ih

theorem mem_keys_uniqueIdsFrom :
    ∀ (es : List Entry) (seen : List String) (v : String),
      v ∈ (uniqueIdsFrom seen es).map Prod.fst ↔
        v ∉ seen ∧ ∃ e ∈ es, e.vimeo_id = some v ∧ v ≠ "" := by
  intro es
  induction es with
  | nil => intro seen v; simp [uniqueIdsFrom]
  | cons e es ih =>
      intro seen v
      obtain ⟨er, eo, em, eb, ek, eu, et, eurl, eclean, evid⟩ := e
      cases evid with
      | none =>
          rw [show uniqueIdsFrom seen
                (⟨er, eo, em, eb, ek, eu, et, eurl, eclean, none⟩ :: es)
              = uniqueIdsFrom seen es from rfl, ih]
          constructor
          · rintro ⟨hseen, e', he', hid, hne⟩
            exact ⟨hseen, e', List.mem_cons_of_mem _ he', hid, hne⟩
          · rintro ⟨hseen, e', he', hid, hne⟩
            rcases List.mem_cons.1 he' with rfl | he2
            · exact absurd hid (by simp)
            · exact ⟨hseen, e', he2, hid, hne⟩
      | some vid =>
          by_cases hc : vid ≠ "" ∧ vid ∉ seen
          · rw [show uniqueIdsFrom seen
                  (⟨er, eo, em, eb, ek, eu, et, eurl, eclean, some vid⟩ :: es)
                = if vid ≠ "" ∧ vid ∉ seen then
                    (vid, eclean) :: uniqueIdsFrom (vid :: seen) es
                  else uniqueIdsFrom seen es from rfl, if_pos hc]
            rw [List.map_cons, List.mem_cons, ih]
            by_cases hvv : v = vid
            · subst hvv
              constructor
              · intro _
                exact ⟨hc.2, _, List.mem_cons_self _ es, rfl, hc.1⟩
              · intro _
                exact Or.inl rfl
            · constructor
              · rintro (rfl | ⟨hseen, e', he', hid, hne⟩)
                · exact absurd rfl hvv
                · exact ⟨fun hmem => hseen (List.mem_cons_of_mem vid hmem),
                    e', List.mem_cons_of_mem _ he', hid, hne⟩
              · rintro ⟨hseen, e', he', hid, hne⟩
                rcases List.mem_cons.1 he' with rfl | he2
                · exact absurd (Option.some_injective _ hid).symm hvv
                · refine Or.inr ⟨?_, e', he2, hid, hne⟩
                  intro hmem
                  rcases List.mem_cons.1 hmem with rfl | hmem2
                  · exact hvv rfl
                  · exact hseen hmem2
          · rw [show uniqueIdsFrom seen
                  (⟨er, eo, em, eb, ek, eu, et, eurl, eclean, some vid⟩ :: es)
                = if vid ≠ "" ∧ vid ∉ seen then
                    (vid, eclean) :: uniqueIdsFrom (vid :: seen) es
                  else uniqueIdsFrom seen es from rfl, if_neg hc, ih]
            constructor
            · rintro ⟨hseen, e', he', hid, hne⟩
              exact ⟨hseen, e', List.mem_cons_of_mem _ he', hid, hne⟩
            · rintro ⟨hseen, e', he', hid, hne⟩
              rcases List.mem_cons.1 he' with rfl | he2
              · have hveq : vid = v := Option.some_injective _ hid
                subst hveq
                rcases not_and_or.1 hc with hbad | hbad
                · exact absurd hne (by simpa using hbad)
                · exact absurd (by simpa using hbad) hseen
              · exact ⟨hseen, e', he2, hid, hne⟩

theorem nodup_keys_uniqueIdsFrom :
    ∀ (es : List Entry) (seen : List String),
      ((uniqueIdsFrom seen es).map Prod.fst).Nodup := by
  intro es
  induction es with
  | nil => intro seen; simp [uniqueIdsFrom]
  | cons e es ih =>
      intro seen
      obtain ⟨er, eo, em, eb, ek, eu, et, eurl, eclean, evid⟩ := e
      cases evid with
      | none =>
          rw [show uniqueIdsFrom seen
                (⟨er, eo, em, eb, ek, eu, et, eurl, eclean, none⟩ :: es)
              = uniqueIdsFrom seen es from rfl]
          exact ih seen
      | some vid =>
          by_cases hc : vid ≠ "" ∧ vid ∉ seen
          · rw [show uniqueIdsFrom seen
                  (⟨er, eo, em, eb, ek, eu, et, eurl, eclean, some vid⟩ :: es)
                = if vid ≠ "" ∧ vid ∉ seen then
                    (vid, eclean) :: uniqueIdsFrom (vid :: seen) es
                  else uniqueIdsFrom seen es from rfl, if_pos hc]
            rw [List.map_cons, List.nodup_cons]
            refine ⟨?_, ih (vid :: seen)⟩
            intro hmem
            have := (mem_keys_uniqueIdsFrom es (vid :: seen) vid).1 hmem
            exact this.1 (List.mem_cons_self vid seen)
          · rw [show uniqueIdsFrom seen
                  (⟨er, eo, em, eb, ek, eu, et, eurl, eclean, some vid⟩ :: es)
                = if vid ≠ "" ∧ vid ∉ seen then
                    (vid, eclean) :: uniqueIdsFrom (vid :: seen) es
                  else uniqueIdsFrom seen es from rfl, if_neg hc]
            exact ih seen

end Transkript

namespace Transkript

set_option maxRecDepth 8000

/-- Counterexample to C5 as stated: with two entries whose ids first
appear as "b" then "a", and both ids fetched `ok`, the download phase
iterates `["b", "a"]` (first-seen dict order) while the transcription
phase iterates `["a", "b"]` (`sorted` over the eligible set) — the same
item set in two different orders, so the two phases do not follow one
single ordering. -/
theorem c5_counterexample :
    fetch_order [⟨2, none, "", "", "", "", "kurz", "u", "u", some "b"⟩,
                 ⟨2, none, "", "", "", "", "lang", "v", "v", some "a"⟩] = ["b", "a"] ∧
    transcribe_order [⟨2, none, "", "", "", "", "kurz", "u", "u", some "b"⟩,
                      ⟨2, none, "", "", "", "", "lang", "v", "v", some "a"⟩]
        [("b", fetchOk "p"), ("a", fetchOk "q")] = ["a", "b"] ∧
    fetch_order [⟨2, none, "", "", "", "", "kurz", "u", "u", some "b"⟩,
                 ⟨2, none, "", "", "", "", "lang", "v", "v", some "a"⟩] ≠
      transcribe_order [⟨2, none, "", "", "", "", "kurz", "u", "u", some "b"⟩,
                        ⟨2, none, "", "", "", "", "lang", "v", "v", some "a"⟩]
        [("b", fetchOk "p"), ("a", fetchOk "q")] := by
  decide

/-- C5 (amended): each phase on its own processes items in a stable
deterministic order, but the two phases do not share one ordering: the
fetch phase visits the unique ids in first-seen order (each id exactly
once, exactly the non-empty ids occurring in the entries), while the
transform phase visits its eligible ids in ascending lexicographic order
(adjacent elements sorted, each id exactly once, exactly the eligible
ids). -/
theorem c5_phase_orders (entries : List Entry)
    (downloaded : List (String × FetchRec)) :
    (fetch_order entries).Nodup ∧
    (∀ v, v ∈ fetch_order entries ↔ ∃ e ∈ entries, e.vimeo_id = some v ∧ v ≠ "") ∧
    (transcribe_order entries downloaded).Nodup ∧
    List.Chain' (fun a b => strLe a b = true) (transcribe_order entries downloaded) ∧
    (∀ v, v ∈ transcribe_order entries downloaded ↔ v ∈ eligibleIds entries downloaded) := by
  refine ⟨?_, ?_, ?_, ?_, ?_⟩
  · exact nodup_keys_uniqueIdsFrom entries []
  · intro v
    unfold fetch_order unique_ids
    rw [mem_keys_uniqueIdsFrom]
    simp
  · exact ((sortStrings_perm (eligibleIds entries downloaded)).nodup_iff).2
      (List.nodup_dedup _)
  · exact chain_le_sortStrings (eligibleIds entries downloaded)
  · intro v
    exact (sortStrings_perm (eligibleIds entries downloaded)).mem_iff

end Transkript

namespace Transkript

/-- Unfolding equation for `uniqueIdsFrom` on a cons cell. -/
theorem uniqueIdsFrom_cons (seen : List String) (e : Entry) (es : List Entry) :
    uniqueIdsFrom seen (e :: es) =
      match e.vimeo_id with
      | some vid =>
          if vid ≠ "" ∧ vid ∉ seen then
            (vid, e.url_clean) :: uniqueIdsFrom (vid :: seen) es
          else uniqueIdsFrom seen es
      | none => uniqueIdsFrom seen es := rfl

theorem eligEntry_of_vimeo (downloaded : List (String × FetchRec)) (e : Entry)
    (v : String) (hv : e.vimeo_id = some v) :
    eligEntry downloaded e = ((v ≠ "" : Bool) && fetchOkAt downloaded v) := by
  simp only [eligEntry, fetchOkAt, hv]

theorem transcribe_step_untouched (fs : String → Bool) (oT : String → TransOutcome)
    (downloaded : List (String × FetchRec)) (st : TState) (vid w : String)
    (hvw : vid ≠ w) :
    alGet (transcribe_step fs oT downloaded st w).progress.transcribed vid
      = alGet st.progress.transcribed vid ∧
    (vid ∉ st.calls → vid ∉ (transcribe_step fs oT downloaded st w).calls) := by
  by_cases h : transSkip st.progress.transcribed w = true
  · rw [transcribe_step_skip fs oT downloaded st w h]
    exact ⟨rfl, fun hc => hc⟩
  · rw [Bool.not_eq_true] at h
    by_cases hf : fs (((alGet downloaded w).getD (fetchErr "")).path) = true
    · cases ho : oT w with
      | ret segs dur proc =>
          rw [transcribe_step_ret fs oT downloaded st w segs dur proc h hf ho]
          refine ⟨alGet_alSet_ne _ _ _ _ hvw, fun hc hmem => ?_⟩
          rcases List.mem_append.1 hmem with hmem | hmem
          · exact hc hmem
          · exact hvw (List.mem_singleton.1 hmem)
      | exc m =>
          rw [transcribe_step_exc fs oT downloaded st w m h hf ho]
          refine ⟨alGet_alSet_ne _ _ _ _ hvw, fun hc hmem => ?_⟩
          rcases List.mem_append.1 hmem with hmem | hmem
          · exact hc hmem
          · exact hvw (List.mem_singleton.1 hmem)
    · rw [Bool.not_eq_true] at hf
      rw [transcribe_step_nofile fs oT downloaded st w h hf]
      exact ⟨alGet_alSet_ne _ _ _ _ hvw, fun hc => hc⟩

/-- C10: the transform phase only ever considers items whose fetch state
is `ok`: an id absent from the `downloaded` mapping, or present with a
status other than `"ok"`, is not in the transform work list, the
transform collaborator is never invoked for it, and its transform state
is left unchanged by the whole transform run. -/
theorem c10_transform_requires_fetch_ok (fs : String → Bool)
    (oT : String → TransOutcome) (entries : List Entry)
    (downloaded : List (String × FetchRec)) (p : Progress) (vid : String)
    (h : fetchOkAt downloaded vid = false) :
    vid ∉ transcribe_order entries downloaded ∧
    vid ∉ (transcribe_audio fs oT entries downloaded p).calls ∧
    alGet (transcribe_audio fs oT entries downloaded p).progress.transcribed vid
      = alGet p.transcribed vid := by
  have hnotelig : vid ∉ eligibleIds entries downloaded := by
    intro hmem
    rw [eligibleIds, List.mem_dedup, List.mem_filterMap] at hmem
    obtain ⟨e, he, hfe⟩ := hmem
    by_cases helig : eligEntry downloaded e = true
    · rw [if_pos helig] at hfe
      rw [eligEntry_of_vimeo downloaded e vid hfe, Bool.and_eq_true, h] at helig
      exact Bool.false_ne_true helig.2
    · rw [Bool.not_eq_true] at helig
      rw [if_neg (by rw [helig]; exact Bool.false_ne_true)] at hfe
      exact Option.noConfusion hfe
  have hnotord : vid ∉ transcribe_order entries downloaded := fun hmem =>
    hnotelig ((sortStrings_perm (eligibleIds entries downloaded)).mem_iff.1 hmem)
  refine ⟨hnotord, ?_, ?_⟩
  · unfold transcribe_audio
    have := List.foldlRecOn
      (motive := fun st : TState => vid ∉ st.calls ∧
        alGet st.progress.transcribed vid = alGet p.transcribed vid)
      (transcribe_order entries downloaded) (transcribe_step fs oT downloaded)
      (⟨p, [], [], 0, 0, 0⟩ : TState) ⟨List.not_mem_nil vid, rfl⟩
      (fun st hst w hw =>
        have hvw : vid ≠ w := fun hh => hnotord (hh ▸ hw)
        ⟨(transcribe_step_untouched fs oT downloaded st vid w hvw).2 hst.1,
         ((transcribe_step_untouched fs oT downloaded st vid w hvw).1).trans hst.2⟩)
    exact this.1
  · unfold transcribe_audio
    have := List.foldlRecOn
      (motive := fun st : TState => vid ∉ st.calls ∧
        alGet st.progress.transcribed vid = alGet p.transcribed vid)
      (transcribe_order entries downloaded) (transcribe_step fs oT downloaded)
      (⟨p, [], [], 0, 0, 0⟩ : TState) ⟨List.not_mem_nil vid, rfl⟩
      (fun st hst w hw =>
        have hvw : vid ≠ w := fun hh => hnotord (hh ▸ hw)
        ⟨(transcribe_step_untouched fs oT downloaded st vid w hvw).2 hst.1,
         ((transcribe_step_untouched fs oT downloaded st vid w hvw).1).trans hst.2⟩)
    exact this.2

/-- Witness for C10: id `"b"` has a fetch `error` state, so a transform
run over an entry list containing it never calls the collaborator for it
and leaves its transform state (here: absent) unchanged. -/
theorem c10_transform_requires_fetch_ok_witness :
    "b" ∉ transcribe_order [⟨2, none, "", "", "", "", "kurz", "u", "u", some "b"⟩]
        [("b", fetchErr "m")] ∧
    "b" ∉ (transcribe_audio (fun _ => true) (fun _ => TransOutcome.exc "y")
        [⟨2, none, "", "", "", "", "kurz", "u", "u", some "b"⟩]
        [("b", fetchErr "m")] ⟨[("b", fetchErr "m")], []⟩).calls ∧
    alGet (transcribe_audio (fun _ => true) (fun _ => TransOutcome.exc "y")
        [⟨2, none, "", "", "", "", "kurz", "u", "u", some "b"⟩]
        [("b", fetchErr "m")] ⟨[("b", fetchErr "m")], []⟩).progress.transcribed "b"
      = alGet ([] : List (String × TransRec)) "b" :=
  c10_transform_requires_fetch_ok (fun _ => true) (fun _ => TransOutcome.exc "y")
    [⟨2, none, "", "", "", "", "kurz", "u", "u", some "b"⟩]
    [("b", fetchErr "m")] ⟨[("b", fetchErr "m")], []⟩ "b" (by decide)

end Transkript

namespace Transkript

theorem uniqueIdsFrom_drop_none (e : Entry) (he : e.vimeo_id = none) :
    ∀ (l1 l2 : List Entry) (seen : List String),
      uniqueIdsFrom seen (l1 ++ e :: l2) = uniqueIdsFrom seen (l1 ++ l2) := by
  intro l1
  induction l1 with
  | nil =>
      intro l2 seen
      rw [List.nil_append, List.nil_append]
      simp only [uniqueIdsFrom_cons, he]
  | cons a t1 ih =>
      intro l2 seen
      rw [List.cons_append, List.cons_append]
      cases ha : a.vimeo_id with
      | none =>
          simp only [uniqueIdsFrom_cons, ha]
          exact ih l2 seen
      | some v =>
          simp only [uniqueIdsFrom_cons, ha]
          by_cases hc : v ≠ "" ∧ v ∉ seen
          · rw [if_pos hc, if_pos hc]
            exact congrArg _ (ih l2 (v :: seen))
          · rw [if_neg hc, if_neg hc]
            exact ih l2 seen

theorem eligibleIds_drop_none (e : Entry) (he : e.vimeo_id = none)
    (downloaded : List (String × FetchRec)) (l1 l2 : List Entry) :
    eligibleIds (l1 ++ e :: l2) downloaded = eligibleIds (l1 ++ l2) downloaded := by
  unfold eligibleIds
  have hnone : (if eligEntry downloaded e then e.vimeo_id else none) = none := by
    by_cases h : eligEntry downloaded e = true
    · rw [if_pos h]; exact he
    · rw [Bool.not_eq_true] at h
      rw [if_neg (by rw [h]; exact Bool.false_ne_true)]
  rw [List.filterMap_append, List.filterMap_append, List.filterMap_cons, hnone]

/-- C8: an input row whose URL slot — either the short-link slot
`video_kurz` or the long-link slot `video_lang` — contains the host
marker but no parseable numeric id still yields an entry with an absent
`vimeo_id` — it is not dropped; such an entry contributes nothing to
either phase's work list (removing it changes neither the fetch order
nor the transform order); and it surfaces in the final report with the
`keine_vimeo_id` status. -/
theorem c8_unparseable_id_tracked (rows : List RawRow) (r : RawRow) (u : String)
    (downloaded : List (String × FetchRec)) (t : List (String × TransRec))
    (e : Entry) (l1 l2 : List Entry) :
    (r ∈ rows → r.video_kurz = some u → hasVimeo (some u) = true →
      extract_vimeo_id (clean_vimeo_url u) = none →
      (⟨r.row, r.order, cellStr r.modul, cellStr r.bereich, cellStr r.kategorie,
        cellStr r.uebung, "kurz", strip u, clean_vimeo_url u, none⟩ : Entry)
        ∈ read_excel rows) ∧
    (r ∈ rows → r.video_lang = some u → hasVimeo (some u) = true →
      extract_vimeo_id (clean_vimeo_url u) = none →
      (⟨r.row, r.order, cellStr r.modul, cellStr r.bereich, cellStr r.kategorie,
        cellStr r.uebung, "lang", strip u, clean_vimeo_url u, none⟩ : Entry)
        ∈ read_excel rows) ∧
    (e.vimeo_id = none →
      fetch_order (l1 ++ e :: l2) = fetch_order (l1 ++ l2) ∧
      transcribe_order (l1 ++ e :: l2) downloaded
        = transcribe_order (l1 ++ l2) downloaded) ∧
    (e.vimeo_id = none → row_status t downloaded e = ⟨"keine_vimeo_id", "", none⟩) := by
  refine ⟨?_, ?_, ?_, ?_⟩
  · intro hr hvk hmark hid
    unfold read_excel
    rw [List.mem_flatMap]
    refine ⟨r, hr, List.mem_append_left _ ?_⟩
    rw [hvk]
    unfold slotEntry
    rw [if_pos hmark]
    simp only [Option.getD_some]
    rw [List.mem_singleton]
    rw [hid]
  · intro hr hvl hmark hid
    unfold read_excel
    rw [List.mem_flatMap]
    refine ⟨r, hr, List.mem_append_right _ ?_⟩
    rw [hvl]
    unfold slotEntry
    rw [if_pos hmark]
    simp only [Option.getD_some]
    rw [List.mem_singleton]
    rw [hid]
  · intro he
    constructor
    · unfold fetch_order unique_ids
      rw [uniqueIdsFrom_drop_none e he l1 l2 []]
    · unfold transcribe_order
      rw [eligibleIds_drop_none e he downloaded l1 l2]
  · intro he
    simp [row_status, he]

/-- Witness for C8: the URL `"https://vimeo.com/abc?share=copy"` contains
the host marker but no numeric id; a row carrying it in the short-link
slot and a row carrying it in the long-link slot each still produce an
entry (with absent id) in the flat entry list. -/
theorem c8_unparseable_id_tracked_witness :
    ((⟨2, none, cellStr none, cellStr none, cellStr none, cellStr none, "kurz",
      strip "https://vimeo.com/abc?share=copy",
      clean_vimeo_url "https://vimeo.com/abc?share=copy", none⟩ : Entry)
      ∈ read_excel [⟨2, none, none, none, none, none,
          some "https://vimeo.com/abc?share=copy", none⟩]) ∧
    ((⟨3, none, cellStr none, cellStr none, cellStr none, cellStr none, "lang",
      strip "https://vimeo.com/abc?share=copy",
      clean_vimeo_url "https://vimeo.com/abc?share=copy", none⟩ : Entry)
      ∈ read_excel [⟨3, none, none, none, none, none, none,
          some "https://vimeo.com/abc?share=copy"⟩]) :=
  ⟨(c8_unparseable_id_tracked
      [⟨2, none, none, none, none, none, some "https://vimeo.com/abc?share=copy", none⟩]
      ⟨2, none, none, none, none, none, some "https://vimeo.com/abc?share=copy", none⟩
      "https://vimeo.com/abc?share=copy" [] []
      ⟨2, none, "", "", "", "", "kurz", "u", "u", none⟩ [] []).1
    (List.mem_singleton.2 rfl) rfl (by decide) (by decide),
   (c8_unparseable_id_tracked
      [⟨3, none, none, none, none, none, none, some "https://vimeo.com/abc?share=copy"⟩]
      ⟨3, none, none, none, none, none, none, some "https://vimeo.com/abc?share=copy"⟩
      "https://vimeo.com/abc?share=copy" [] []
      ⟨3, none, "", "", "", "", "lang", "u", "u", none⟩ [] []).2.1
    (List.mem_singleton.2 rfl) rfl (by decide) (by decide)⟩

end Transkript
